import Mathlib

/-!
Shallow embedding of the core data pipeline of `src/project/app.py`
(function `process_excel_file`): excluded-code scrub, numeric coercion,
sold-quantity sign normalization, leg merging via `fillna`, aggregation via
`groupby([..], dropna=False).agg(sum)`, materiality filtering, and output
formatting.

Modelling conventions:
* A pandas cell that may be missing (`NaN` / `None`) is an `Option`.
* Quantity and market-value cells are `Option ℚ`: the value produced by
  `pd.to_numeric(col.astype(str).str.replace(",", ""), errors="coerce")`,
  i.e. a parsed number or `none`.  On this representation the coercion
  round-trip is the identity — `NaN` stringifies to `"nan"` and parses back
  to `NaN`, a scrubbed `None` stringifies to `"None"` and coerces to `NaN` —
  so it needs no separate stage.
* `astype(str)` on the two code columns turns a missing cell into the
  literal string `"nan"`, which is *not* missing afterwards; `astypeStr`
  models exactly this.  The name columns are never passed through
  `astype(str)` and stay genuinely nullable.
* `groupby` is modelled by enumerating the distinct keys of the merged rows
  and summing each fiber.  pandas emits groups sorted by key; no claim
  below depends on the order of the groups, so keys are taken in `dedup`
  order.  pandas' `sum` skips `NaN` and returns `0` for an all-`NaN`
  group, hence the `Option.getD 0` in the fiber sums.
-/

/-- One row of the worksheet after the header fix-up and the column
pruning of `process_excel_file` (lines 29–46 of `src/project/app.py`):
only the columns the rest of the pipeline reads remain.  `mktValue` stands
for the `'Mkt. Value'` column when present, else `'Value'`. -/
structure InputRow where
  boughtCode : Option String
  boughtName : Option String
  boughtQty  : Option ℚ
  soldCode   : Option String
  soldName   : Option String
  soldQty    : Option ℚ
  scripName  : Option String
  mktValue   : Option ℚ
deriving DecidableEq

/-- The excluded system codes, from
`df['Bought Code'].isin(['SYS18', 'SYS27'])`. -/
def EXCLUDED : List String := ["SYS18", "SYS27"]

/-- pandas `Series.astype(str)` on a nullable string column: a missing
cell (`NaN`) becomes the literal string `"nan"`. -/
def astypeStr : Option String → String
  | none => "nan"
  | some s => s

/-- A trade-leg record after the excluded-code scrub.  The code columns
have been through `astype(str)`, so they are `none` only when the scrub
set them to `None`. -/
structure ScrubbedRow where
  boughtCode : Option String
  boughtName : Option String
  boughtQty  : Option ℚ
  soldCode   : Option String
  soldName   : Option String
  soldQty    : Option ℚ
  scripName  : Option String
  mktValue   : Option ℚ
deriving DecidableEq

/-- Lines 49–59 of `src/project/app.py`: `astype(str)` on both code
columns, then for each side independently
`df.loc[mask, [code, name, quantity]] = None` where `mask` is membership
of the (stringified) code in `EXCLUDED`.  Note that the *quantity* column
of the matching side is set to `None` together with the code and name. -/
def scrub (r : InputRow) : ScrubbedRow :=
  let bc := astypeStr r.boughtCode
  let sc := astypeStr r.soldCode
  let bMask := bc ∈ EXCLUDED
  let sMask := sc ∈ EXCLUDED
  { boughtCode := if bMask then none else some bc
    boughtName := if bMask then none else r.boughtName
    boughtQty  := if bMask then none else r.boughtQty
    soldCode   := if sMask then none else some sc
    soldName   := if sMask then none else r.soldName
    soldQty    := if sMask then none else r.soldQty
    scripName  := r.scripName
    mktValue   := r.mktValue }

/-- Lines 79–82 of `src/project/app.py`:
`df['Sold Quantity'].apply(lambda x: -abs(x) if pd.notnull(x) else x)`.
The market-value column is deliberately left untouched (the source
comments: "Don't change the sign of Value column"). -/
def signNormalize (r : ScrubbedRow) : ScrubbedRow :=
  { r with soldQty := r.soldQty.map (fun x => -|x|) }

/-- pandas `Series.fillna(other)` at a single cell: keep the cell when it
is non-null, otherwise take the other column's cell (which may itself be
null, in which case the result stays null). -/
def fillna {α : Type} (a b : Option α) : Option α :=
  match a with
  | some x => some x
  | none => b

/-- A row after the bought/sold columns are merged and the sold columns
are dropped (lines 88–96 of `src/project/app.py`). -/
structure MergedRow where
  code      : Option String
  name      : Option String
  qty       : Option ℚ
  scripName : Option String
  value     : Option ℚ
deriving DecidableEq

/-- Lines 88–96 of `src/project/app.py`: `fillna` each bought column from
the corresponding sold column, keep the value column as is, then drop the
sold columns. -/
def merge (r : ScrubbedRow) : MergedRow :=
  { code      := fillna r.boughtCode r.soldCode
    name      := fillna r.boughtName r.soldName
    qty       := fillna r.boughtQty r.soldQty
    scripName := r.scripName
    value     := r.mktValue }

/-- The whole row-level part of the pipeline: scrub, sign-normalize,
merge. -/
def cleanMerge (r : InputRow) : MergedRow :=
  merge (signNormalize (scrub r))

/-- The grouping key of `groupby(['Bought Name', 'Scrip Name',
'Bought Code'], dropna=False)`, in that column order. -/
def mkey (r : MergedRow) : Option String × Option String × Option String :=
  (r.name, r.scripName, r.code)

/-- One row of the `summary` frame after `groupby(...).agg(...)`,
`reset_index()` and the rename of the value column to `'Value'`. -/
structure SummaryRow where
  boughtName     : Option String
  scripName      : Option String
  boughtCode     : Option String
  boughtQuantity : ℚ
  value          : ℚ
deriving DecidableEq

/-- pandas `'sum'` aggregation over a column of a group: `NaN` cells are
skipped, an all-`NaN` (or empty) group sums to `0`. -/
def sumD (l : List (Option ℚ)) : ℚ :=
  (l.map (fun o => o.getD 0)).sum

/-- Lines 98–106 of `src/project/app.py`: group the merged rows by
`(Bought Name, Scrip Name, Bought Code)` with `dropna=False` (so missing
keys form their own groups) and sum quantity and value per group. -/
def aggregate (l : List MergedRow) : List SummaryRow :=
  ((l.map mkey).dedup).map (fun k =>
    { boughtName     := k.1
      scripName      := k.2.1
      boughtCode     := k.2.2
      boughtQuantity := sumD ((l.filter (fun r => decide (mkey r = k))).map (fun r => r.qty))
      value          := sumD ((l.filter (fun r => decide (mkey r = k))).map (fun r => r.value)) })

/-- Lines 111–115 of `src/project/app.py`:
`summary[(summary['Bought Quantity'].abs() > 9999) |
(summary['Value'].abs() > 999999)]`. -/
def materialityFilter (l : List SummaryRow) : List SummaryRow :=
  l.filter (fun s => decide (9999 < |s.boughtQuantity| ∨ 999999 < |s.value|))

/-- Floor of a rational, computed on the numerator and denominator. -/
def qfloor (q : ℚ) : ℤ :=
  Int.fdiv q.num q.den

/-- Round a (here always nonnegative) rational to the nearest integer,
ties to even — the rounding Python's fixed-point float formatting
performs.  The embedding idealizes the binary floating-point values of
the source as exact rationals. -/
def roundHalfEven (q : ℚ) : ℤ :=
  let n := qfloor q
  let r := q - n
  if r < 1 / 2 then n
  else if 1 / 2 < r then n + 1
  else if n % 2 = 0 then n else n + 1

/-- Insert a comma after every three characters of a *reversed* digit
list: the thousands grouping of Python's `','` format flag. -/
def commaGroupRev : List Char → List Char
  | [] => []
  | [a] => [a]
  | [a, b] => [a, b]
  | [a, b, c] => [a, b, c]
  | a :: b :: c :: d :: rest => a :: b :: c :: ',' :: commaGroupRev (d :: rest)

/-- Python `f"\x7bx:,.2f\x7d"`: sign, integer part with comma thousands
separators, a dot, and exactly two fraction digits. -/
def formatComma2 (x : ℚ) : String :=
  let n : ℤ := roundHalfEven (100 * |x|)
  let ip : ℕ := (n / 100).toNat
  let fp : ℕ := (n % 100).toNat
  let ipStr := String.mk ((commaGroupRev (Nat.repr ip).data.reverse).reverse)
  let fpStr := if fp < 10 then "0" ++ Nat.repr fp else Nat.repr fp
  (if x < 0 then "-" else "") ++ ipStr ++ "." ++ fpStr

/-- Lines 117–125 of `src/project/app.py`: the formatting lambda
`lambda x: f"\x7bx:,.2f\x7d" if pd.notnull(x) else x`, as a map on a
nullable numeric cell. -/
def formatCell (o : Option ℚ) : Option String :=
  o.map formatComma2

/-- A row of the final frame: identity columns unchanged, the two numeric
columns replaced by their formatted strings. -/
structure OutputRow where
  boughtName     : Option String
  scripName      : Option String
  boughtCode     : Option String
  boughtQuantity : Option String
  value          : Option String
deriving DecidableEq

/-- Apply the two formatting lambdas to a summary row. -/
def formatRow (s : SummaryRow) : OutputRow :=
  { boughtName     := s.boughtName
    scripName      := s.scripName
    boughtCode     := s.boughtCode
    boughtQuantity := formatCell (some s.boughtQuantity)
    value          := formatCell (some s.value) }

/-- The aggregated, materiality-filtered summary (before formatting). -/
def summarize (rows : List InputRow) : List SummaryRow :=
  materialityFilter (aggregate (rows.map cleanMerge))

/-- The full row pipeline of `process_excel_file`, from pruned input rows
to the formatted output frame. -/
def process_excel_file (rows : List InputRow) : List OutputRow :=
  (summarize rows).map formatRow

/-- Column bookkeeping of the aggregation step.  The `groupby` keys, in
order. -/
def groupbyKeyColumns : List String := ["Bought Name", "Scrip Name", "Bought Code"]

/-- The aggregated columns, in the order of the `agg` dict: the quantity
column, then the value column (`'Mkt. Value'` or `'Value'`, whichever the
input had). -/
def aggColumns (valueColumn : String) : List String := ["Bought Quantity", valueColumn]

/-- `summary.rename(columns=...)` applied to a single column name: the
value column becomes `'Value'`, every other name is untouched. -/
def renameValueCol (valueColumn c : String) : String :=
  if c = valueColumn then "Value" else c

/-- The column names of the `summary` frame after `reset_index()` and the
rename (lines 98–109 of `src/project/app.py`): the three group keys
followed by the two aggregated columns. -/
def summaryColumns (valueColumn : String) : List String :=
  (groupbyKeyColumns ++ aggColumns valueColumn).map (renameValueCol valueColumn)

/-- The output header the specification prescribes, written from its
words (for comparison with `summaryColumns`). -/
def specOutputColumns : List String :=
  ["Bought Name", "Scrip Name", "Bought Code", "Sum of Bought Quantity", "Sum of Value"]

/-- Claim C1 (counterexample): the excluded-code scrub does *not* leave
the bought quantity unchanged — `df.loc[mask, ['Bought Code',
'Bought Name', 'Bought Quantity']] = None` nulls the quantity together
with the code and name, so a `SYS18` row's 500 units vanish from
aggregation (the group sums to 0). -/
theorem scrub_sys18_nulls_quantity :
    (scrub ⟨some "SYS18", some "X", some 500, none, none, none, none, none⟩).boughtQty = none
    ∧ (none : Option ℚ) ≠ some 500
    ∧ (aggregate [cleanMerge ⟨some "SYS18", some "X", some 500, none, none, none, none, none⟩]).map
        (fun s => s.boughtQuantity) = [0] := by
  refine ⟨rfl, by simp, ?_⟩
  simp [aggregate, cleanMerge, merge, signNormalize, scrub, astypeStr, EXCLUDED, fillna, mkey, sumD]

/-- Claim C1 (amended): for a row whose (stringified) bought-side code is
excluded, the cleaner nulls the bought code, name AND quantity; likewise
on the sold side; the row's market value and scrip name are unchanged. -/
theorem scrub_excluded_nulls_side (r : InputRow) :
    (astypeStr r.boughtCode ∈ EXCLUDED →
      (scrub r).boughtCode = none ∧ (scrub r).boughtName = none ∧ (scrub r).boughtQty = none)
    ∧ (astypeStr r.soldCode ∈ EXCLUDED →
      (scrub r).soldCode = none ∧ (scrub r).soldName = none ∧ (scrub r).soldQty = none)
    ∧ (scrub r).mktValue = r.mktValue ∧ (scrub r).scripName = r.scripName := by
  refine ⟨fun h => ?_, fun h => ?_, rfl, rfl⟩ <;> simp [scrub, h]

/-- Witness for `scrub_excluded_nulls_side` at a concrete row with both
sides excluded. -/
theorem scrub_excluded_nulls_side_witness :
    (scrub ⟨some "SYS18", some "X", some 500, some "SYS27", some "Y", some 200, some "SC", some 7⟩).boughtQty = none
    ∧ (scrub ⟨some "SYS18", some "X", some 500, some "SYS27", some "Y", some 200, some "SC", some 7⟩).soldQty = none
    ∧ (scrub ⟨some "SYS18", some "X", some 500, some "SYS27", some "Y", some 200, some "SC", some 7⟩).mktValue = some 7 := by
  have h := scrub_excluded_nulls_side
    ⟨some "SYS18", some "X", some 500, some "SYS27", some "Y", some 200, some "SC", some 7⟩
  exact ⟨(h.1 (by decide)).2.2, (h.2.1 (by decide)).2.2, h.2.2.1⟩

/-- Claim C2 (counterexample): with both legs non-null the merge keeps the
bought quantity as is (`fillna` overwrites nothing non-null); it does not
produce the sum 100 + (-50) = 50. -/
theorem merge_both_legs_not_summed :
    (merge ⟨some "B1", some "B", some 100, some "S1", some "S", some (-50), some "SC", some 10⟩).qty
      = some 100
    ∧ (some (100 : ℚ)) ≠ some ((100 : ℚ) + (-50)) := by
  refine ⟨rfl, fun h => ?_⟩
  rw [Option.some.injEq] at h
  norm_num at h

/-- Claim C2 (amended): `final_quantity` is the bought quantity whenever
it is non-null — the sold leg is ignored even when also non-null — and is
the (sign-normalized) sold quantity otherwise; both null gives null. -/
theorem merge_qty_fillna (r : ScrubbedRow) :
    (∀ b : ℚ, r.boughtQty = some b → (merge r).qty = some b)
    ∧ (r.boughtQty = none → (merge r).qty = r.soldQty) := by
  constructor
  · intro b hb
    simp [merge, fillna, hb]
  · intro hb
    simp [merge, fillna, hb]

/-- Witness for `merge_qty_fillna`: a both-legs row keeps the bought 100;
a sold-only row takes the sold -50. -/
theorem merge_qty_fillna_witness :
    (merge ⟨some "B1", some "B", some 100, some "S1", some "S", some (-50), some "SC", some 10⟩).qty
      = some 100
    ∧ (merge ⟨none, none, none, some "S1", some "S", some (-50), some "SC", some 10⟩).qty
      = some (-50) := by
  have h1 := merge_qty_fillna ⟨some "B1", some "B", some 100, some "S1", some "S", some (-50), some "SC", some 10⟩
  have h2 := merge_qty_fillna ⟨none, none, none, some "S1", some "S", some (-50), some "SC", some 10⟩
  exact ⟨h1.1 100 rfl, h2.2 rfl⟩

/-- Claim C3 (counterexample): the source filters with strict
`abs(...) > 9999`, not `>= 10000`; a group whose quantity sum is 9999.5
is retained although the claimed rule would drop it. -/
theorem materiality_fractional_cex :
    materialityFilter [⟨none, none, none, 19999 / 2, 0⟩] = [⟨none, none, none, 19999 / 2, 0⟩]
    ∧ ¬ (10000 ≤ |(19999 / 2 : ℚ)| ∨ 1000000 ≤ |(0 : ℚ)|) := by
  have h1 : |(19999 / 2 : ℚ)| = 19999 / 2 := abs_of_nonneg (by norm_num)
  constructor
  · have h : (9999 : ℚ) < |(19999 / 2 : ℚ)| := by rw [h1]; norm_num
    simp [materialityFilter, h]
  · rw [h1, abs_zero]
    norm_num

/-- Claim C3 (amended): a summary row survives the filter iff
`9999 < abs(quantity sum)` or `999999 < abs(value sum)` (strict); on
integer-valued sums this coincides with the claimed `>= 10000` /
`>= 1000000`, so a group at exactly 10000 is retained and a group at
(9999, 999999) is dropped. -/
theorem materialityFilter_spec :
    (∀ (s : SummaryRow) (l : List SummaryRow),
        s ∈ materialityFilter l ↔ s ∈ l ∧ (9999 < |s.boughtQuantity| ∨ 999999 < |s.value|))
    ∧ (∀ s : SummaryRow, s.boughtQuantity = 10000 → s ∈ materialityFilter [s])
    ∧ (∀ s : SummaryRow, s.boughtQuantity = 9999 → s.value = 999999 → s ∉ materialityFilter [s]) := by
  have hmem : ∀ (s : SummaryRow) (l : List SummaryRow),
      s ∈ materialityFilter l ↔ s ∈ l ∧ (9999 < |s.boughtQuantity| ∨ 999999 < |s.value|) := by
    intro s l
    simp [materialityFilter, List.mem_filter]
  refine ⟨hmem, ?_, ?_⟩
  · intro s h
    refine (hmem s [s]).mpr ⟨List.mem_singleton_self s, Or.inl ?_⟩
    rw [h, abs_of_nonneg] <;> norm_num
  · intro s h1 h2 hs
    have habs1 : |(9999 : ℚ)| = 9999 := abs_of_nonneg (by norm_num)
    have habs2 : |(999999 : ℚ)| = 999999 := abs_of_nonneg (by norm_num)
    rcases ((hmem s [s]).mp hs).2 with h | h
    · rw [h1, habs1] at h
      exact absurd h (by norm_num)
    · rw [h2, habs2] at h
      exact absurd h (by norm_num)

/-- Witness for `materialityFilter_spec` at the two boundary groups. -/
theorem materialityFilter_spec_witness :
    (⟨none, none, none, 10000, 0⟩ : SummaryRow) ∈ materialityFilter [⟨none, none, none, 10000, 0⟩]
    ∧ (⟨none, none, none, 9999, 999999⟩ : SummaryRow) ∉
        materialityFilter [⟨none, none, none, 9999, 999999⟩] :=
  ⟨materialityFilter_spec.2.1 _ rfl, materialityFilter_spec.2.2 _ rfl rfl⟩

/-- Claim C4 (counterexample): a sold-only row with positive market value
8000 keeps it: the pipeline never re-signs the value column (the source
comments "Don't change the sign of Value column"), although the claim
demands -8000 there. -/
theorem market_value_not_negated :
    (cleanMerge ⟨none, none, none, some "S1", some "S", some 100, some "SC", some 8000⟩).value
      = some 8000
    ∧ (signNormalize (scrub ⟨none, none, none, some "S1", some "S", some 100, some "SC", some 8000⟩)).soldQty
      = some (-100)
    ∧ (some (8000 : ℚ)) ≠ some (-|(8000 : ℚ)|) := by
  have habs : |(8000 : ℚ)| = 8000 := abs_of_nonneg (by norm_num)
  have habs' : |(100 : ℚ)| = 100 := abs_of_nonneg (by norm_num)
  refine ⟨rfl, ?_, fun h => ?_⟩
  · simp [signNormalize, scrub, astypeStr, EXCLUDED, habs']
  · rw [Option.some.injEq, habs] at h
    norm_num at h

/-- Claim C4 (amended): the market value passes through cleaning and
merging unchanged for every row, with or without a sold quantity. -/
theorem market_value_unchanged (r : InputRow) :
    (cleanMerge r).value = r.mktValue := by
  simp [cleanMerge, merge, signNormalize, scrub]

/-- Claim C5 (code bug): for a sold-only row the missing bought code was
turned into the literal string "nan" by `astype(str)` *before* the
`fillna` coalesce, so `final_code` is "nan", not the sold code "A1"; the
name column, never stringified, does coalesce to "Alpha". -/
theorem sold_only_final_code_nan :
    (cleanMerge ⟨none, none, none, some "A1", some "Alpha", some 2000, some "ALPHA", some (-8000)⟩).code
      = some "nan"
    ∧ (cleanMerge ⟨none, none, none, some "A1", some "Alpha", some 2000, some "ALPHA", some (-8000)⟩).name
      = some "Alpha"
    ∧ (some "nan" : Option String) ≠ some "A1" := by
  exact ⟨rfl, rfl, by decide⟩

/-- Claim C6 (counterexample): for either possible value-column name the
summary header is not the claimed
`Bought Name, Scrip Name, Bought Code, Sum of Bought Quantity, Sum of Value`. -/
theorem output_columns_cex :
    summaryColumns "Value" ≠ specOutputColumns
    ∧ summaryColumns "Mkt. Value" ≠ specOutputColumns := by
  decide

/-- Claim C6 (amended): the output header is
`Bought Name, Scrip Name, Bought Code, Bought Quantity, Value` for both
possible value-column names of the input. -/
theorem output_columns_eq (v : String) (hv : v = "Mkt. Value" ∨ v = "Value") :
    summaryColumns v = ["Bought Name", "Scrip Name", "Bought Code", "Bought Quantity", "Value"] := by
  rcases hv with rfl | rfl <;> rfl

/-- Witness for `output_columns_eq` at `"Mkt. Value"`. -/
theorem output_columns_eq_witness :
    summaryColumns "Mkt. Value"
      = ["Bought Name", "Scrip Name", "Bought Code", "Bought Quantity", "Value"] :=
  output_columns_eq "Mkt. Value" (Or.inl rfl)

/-- Claim C9: the sold-quantity rule maps every non-null quantity `x` to
`-abs x`, leaves nulls null, and is idempotent on whole records. -/
theorem sold_sign_normalization (r : ScrubbedRow) :
    (∀ x : ℚ, r.soldQty = some x → (signNormalize r).soldQty = some (-|x|))
    ∧ (r.soldQty = none → (signNormalize r).soldQty = none)
    ∧ signNormalize (signNormalize r) = signNormalize r := by
  refine ⟨fun x hx => by simp [signNormalize, hx], fun hx => by simp [signNormalize, hx], ?_⟩
  have hmap : (r.soldQty.map (fun x => -|x|)).map (fun x => -|x|) = r.soldQty.map (fun x => -|x|) := by
    cases r.soldQty with
    | none => rfl
    | some x => simp [abs_neg, abs_abs]
  show ({ r with soldQty := (r.soldQty.map (fun x => -|x|)).map (fun x => -|x|) } : ScrubbedRow)
      = { r with soldQty := r.soldQty.map (fun x => -|x|) }
  rw [hmap]

/-- Witness for `sold_sign_normalization` at a concrete record. -/
theorem sold_sign_normalization_witness :
    (signNormalize ⟨none, none, none, some "S1", some "S", some 7, none, none⟩).soldQty
      = some (-|(7 : ℚ)|)
    ∧ signNormalize (signNormalize ⟨none, none, none, some "S1", some "S", some 7, none, none⟩)
      = signNormalize ⟨none, none, none, some "S1", some "S", some 7, none, none⟩ := by
  have h := sold_sign_normalization ⟨none, none, none, some "S1", some "S", some 7, none, none⟩
  exact ⟨h.1 7 rfl, h.2.2⟩

-- Summing a quantity fiber-wise over a covering, duplicate-free list of
-- group keys gives the total over all rows: the heart of the aggregation
-- bookkeeping.
theorem sum_fibers (f : MergedRow → ℚ) :
    ∀ (ks : List (Option String × Option String × Option String)) (l : List MergedRow),
      ks.Nodup → (∀ r ∈ l, mkey r ∈ ks) →
      (ks.map (fun k => ((l.filter (fun r => decide (mkey r = k))).map f).sum)).sum
        = (l.map f).sum
  | [], l, _, hcov => by
      have hl : l = [] := by
        cases l with
        | nil => rfl
        | cons a t => exact absurd (hcov a (List.mem_cons_self a t)) (List.not_mem_nil _)
      subst hl
      simp
  | k :: ks, l, hnd, hcov => by
      have hk : k ∉ ks := (List.nodup_cons.mp hnd).1
      have hnd' : ks.Nodup := (List.nodup_cons.mp hnd).2
      have hcov2 : ∀ r ∈ l.filter (fun r => !decide (mkey r = k)), mkey r ∈ ks := by
        intro r hr
        have hr' := List.mem_filter.mp hr
        have h2 : ¬ (mkey r = k) := by
          have hb := hr'.2
          simp only [Bool.not_eq_eq_eq_not, Bool.not_true, decide_eq_false_iff_not] at hb
          exact hb
        rcases List.mem_cons.mp (hcov r hr'.1) with h | h
        · exact absurd h h2
        · exact h
      have hfib : ∀ k' ∈ ks,
          ((l.filter (fun r => decide (mkey r = k'))).map f).sum
            = (((l.filter (fun r => !decide (mkey r = k))).filter
                (fun r => decide (mkey r = k'))).map f).sum := by
        intro k' hk'
        have hne : k' ≠ k := fun h => hk (h ▸ hk')
        rw [List.filter_filter]
        have hpt : ∀ a ∈ l,
            (decide (mkey a = k')) = (decide (mkey a = k') && !decide (mkey a = k)) := by
          intro a _
          by_cases h : mkey a = k'
          · rw [h]
            simp [hne]
          · simp [h]
        rw [← List.filter_congr hpt]
      have hsplit : ((l.filter (fun r => decide (mkey r = k))).map f).sum
          + ((l.filter (fun r => !decide (mkey r = k))).map f).sum = (l.map f).sum := by
        rw [← List.sum_append, ← List.map_append]
        exact ((List.filter_append_perm (fun r => decide (mkey r = k)) l).map f).sum_eq
      calc (((k :: ks).map (fun k => ((l.filter (fun r => decide (mkey r = k))).map f).sum)).sum)
          = ((l.filter (fun r => decide (mkey r = k))).map f).sum
            + (ks.map (fun k' => ((l.filter (fun r => decide (mkey r = k'))).map f).sum)).sum := by
            simp
        _ = ((l.filter (fun r => decide (mkey r = k))).map f).sum
            + (ks.map (fun k' => (((l.filter (fun r => !decide (mkey r = k))).filter
                (fun r => decide (mkey r = k'))).map f).sum)).sum := by
            rw [List.map_congr_left hfib]
        _ = ((l.filter (fun r => decide (mkey r = k))).map f).sum
            + ((l.filter (fun r => !decide (mkey r = k))).map f).sum := by
            rw [sum_fibers f ks (l.filter (fun r => !decide (mkey r = k))) hnd' hcov2]
        _ = (l.map f).sum := hsplit

-- The grand total of the per-group quantity sums equals the total over
-- all merged rows: grouping neither drops nor duplicates any row.
theorem aggregate_qty_total (l : List MergedRow) :
    ((aggregate l).map (fun s => s.boughtQuantity)).sum
      = (l.map (fun r => r.qty.getD 0)).sum := by
  unfold aggregate
  rw [List.map_map]
  simp only [Function.comp, sumD, List.map_map]
  exact sum_fibers (fun r => r.qty.getD 0) ((l.map mkey).dedup) l
    (List.nodup_dedup _) (fun r hr => List.mem_dedup.mpr (List.mem_map_of_mem mkey hr))

-- Sums of pointwise differences split.
theorem sum_map_sub_q {α : Type} (l : List α) (f g : α → ℚ) :
    (l.map (fun a => f a - g a)).sum = (l.map f).sum - (l.map g).sum := by
  induction l with
  | nil => simp
  | cons a t ih =>
      simp only [List.map_cons, List.sum_cons, ih]
      ring

-- Row-level accounting of the merged quantity when the row is not
-- scrubbed and carries at most one leg.
theorem cleanMerge_qty_getD (r : InputRow)
    (h1 : astypeStr r.boughtCode ∉ EXCLUDED) (h2 : astypeStr r.soldCode ∉ EXCLUDED)
    (h3 : r.boughtQty = none ∨ r.soldQty = none) :
    (cleanMerge r).qty.getD 0
      = r.boughtQty.getD 0 - (r.soldQty.map (fun x => |x|)).getD 0 := by
  cases hb : r.boughtQty with
  | some b =>
      have hs : r.soldQty = none := by
        rcases h3 with h | h
        · rw [h] at hb
          cases hb
        · exact h
      simp [cleanMerge, merge, signNormalize, scrub, fillna, h1, h2, hb, hs]
  | none =>
      cases hs : r.soldQty with
      | none => simp [cleanMerge, merge, signNormalize, scrub, fillna, h1, h2, hb, hs]
      | some s => simp [cleanMerge, merge, signNormalize, scrub, fillna, h1, h2, hb, hs]

-- Rounding an integer-valued rational is the identity.
theorem roundHalfEven_intCast (n : ℤ) : roundHalfEven (n : ℚ) = n := by
  unfold roundHalfEven qfloor
  rw [Rat.num_intCast, Rat.den_intCast]
  norm_num [Int.fdiv_one]

/-- Claim C7 (counterexample): the claimed conservation fails on the
pipeline's actual output because the materiality filter discards
immaterial groups — a lone bought-only row of 5 units yields an empty
output (sum 0) while the input net is 5. -/
theorem conservation_filter_cex :
    ((summarize [⟨some "A1", some "Alpha", some 5, none, none, none, some "SC", some 1⟩]).map
        (fun s => s.boughtQuantity)).sum = 0
    ∧ (([⟨some "A1", some "Alpha", some 5, none, none, none, some "SC", some 1⟩] : List InputRow).map
        (fun r => r.boughtQty.getD 0)).sum
      - (([⟨some "A1", some "Alpha", some 5, none, none, none, some "SC", some 1⟩] : List InputRow).map
        (fun r => (r.soldQty.map (fun x => |x|)).getD 0)).sum = 5
    ∧ (0 : ℚ) ≠ 5 := by
  refine ⟨?_, by simp, by norm_num⟩
  have h1 : ¬ (9999 : ℚ) < |(5 : ℚ)| := by rw [abs_of_nonneg] <;> norm_num
  have h2 : ¬ (999999 : ℚ) < |(1 : ℚ)| := by rw [abs_of_nonneg] <;> norm_num
  simp [summarize, materialityFilter, aggregate, cleanMerge, merge, signNormalize, scrub,
        astypeStr, EXCLUDED, fillna, mkey, sumD, h1, h2]
  simp only [List.filter]
  norm_num

/-- Claim C7 (amended): *before* the materiality filter, and for inputs
where no row's stringified code is excluded and no row carries both a
bought and a sold quantity, the sum of the aggregated group quantities
equals the sum of the bought quantities minus the sum of the absolute
sold quantities. -/
theorem quantity_conservation_prefilter (rows : List InputRow)
    (hex : ∀ r ∈ rows, astypeStr r.boughtCode ∉ EXCLUDED ∧ astypeStr r.soldCode ∉ EXCLUDED)
    (hone : ∀ r ∈ rows, r.boughtQty = none ∨ r.soldQty = none) :
    ((aggregate (rows.map cleanMerge)).map (fun s => s.boughtQuantity)).sum
      = (rows.map (fun r => r.boughtQty.getD 0)).sum
        - (rows.map (fun r => (r.soldQty.map (fun x => |x|)).getD 0)).sum := by
  rw [aggregate_qty_total, List.map_map, ← sum_map_sub_q]
  exact congrArg List.sum (List.map_congr_left
    (fun r hr => cleanMerge_qty_getD r (hex r hr).1 (hex r hr).2 (hone r hr)))

/-- Witness for `quantity_conservation_prefilter`: a bought-only row of
100 and a sold-only row of 30 aggregate to a total of 100 - 30 = 70. -/
theorem quantity_conservation_prefilter_witness :
    ((aggregate ([⟨some "A1", some "Alpha", some 100, none, none, none, some "SC", some 10⟩,
                  ⟨none, none, none, some "B2", some "Beta", some 30, some "SC", some (-3)⟩].map
        cleanMerge)).map (fun s => s.boughtQuantity)).sum = 70 := by
  have h := quantity_conservation_prefilter
    [⟨some "A1", some "Alpha", some 100, none, none, none, some "SC", some 10⟩,
     ⟨none, none, none, some "B2", some "Beta", some 30, some "SC", some (-3)⟩]
    (by decide) (by decide)
  rw [h]
  simp
  norm_num

/-- Claim C8: a merged record whose name, scrip name and code are all
missing still yields a group in the aggregation output — `dropna=False`
keeps null keys. -/
theorem null_identity_group_survives (l : List MergedRow) (r : MergedRow)
    (hr : r ∈ l) (hn : r.name = none) (hs : r.scripName = none) (hc : r.code = none) :
    ∃ s, s ∈ aggregate l ∧ s.boughtName = none ∧ s.scripName = none ∧ s.boughtCode = none := by
  unfold aggregate
  refine ⟨_, List.mem_map_of_mem _ (List.mem_dedup.mpr (List.mem_map_of_mem mkey hr)),
    ?_, ?_, ?_⟩ <;> simp [mkey, hn, hs, hc]

/-- Witness for `null_identity_group_survives` on a singleton list. -/
theorem null_identity_group_survives_witness :
    ∃ s, s ∈ aggregate [⟨none, none, none, none, none⟩]
      ∧ s.boughtName = none ∧ s.scripName = none ∧ s.boughtCode = none :=
  null_identity_group_survives _ _ (List.mem_singleton_self _) rfl rfl rfl

/-- Claim C10: every surviving output row carries its quantity and value
as formatted strings (comma thousands grouping, exactly two decimals) of
the underlying sums; the formatting lambda passes nulls through
unformatted; 10000 formats as "10,000.00" (and 1234567.5 as
"1,234,567.50", exercising repeated grouping). -/
theorem output_formatting (rows : List InputRow) (o : OutputRow)
    (ho : o ∈ process_excel_file rows) :
    (∃ s, s ∈ summarize rows ∧ o.boughtName = s.boughtName ∧ o.scripName = s.scripName
        ∧ o.boughtCode = s.boughtCode
        ∧ o.boughtQuantity = some (formatComma2 s.boughtQuantity)
        ∧ o.value = some (formatComma2 s.value))
    ∧ (∀ q : ℚ, formatCell (some q) = some (formatComma2 q))
    ∧ formatCell none = none
    ∧ formatComma2 10000 = "10,000.00"
    ∧ formatComma2 (2469135 / 2) = "1,234,567.50" := by
  refine ⟨?_, fun q => rfl, rfl, ?_, ?_⟩
  · unfold process_excel_file at ho
    rcases List.mem_map.mp ho with ⟨s, hs, hfo⟩
    subst hfo
    exact ⟨s, hs, rfl, rfl, rfl, rfl, rfl⟩
  · have habs : (100 : ℚ) * |(10000 : ℚ)| = ((1000000 : ℤ) : ℚ) := by
      rw [abs_of_nonneg] <;> norm_num
    simp only [formatComma2]
    rw [habs, roundHalfEven_intCast, if_neg (by norm_num : ¬ (10000 : ℚ) < 0)]
    decide
  · have habs : (100 : ℚ) * |(2469135 / 2 : ℚ)| = ((123456750 : ℤ) : ℚ) := by
      rw [abs_of_nonneg] <;> norm_num
    simp only [formatComma2]
    rw [habs, roundHalfEven_intCast, if_neg (by norm_num : ¬ (2469135 / 2 : ℚ) < 0)]
    decide

/-- Witness for `output_formatting`: one material bought-only row flows
through the whole pipeline into the formatted output row
("12,000.00", "50,000.00"). -/
theorem output_formatting_witness :
    ∃ s, s ∈ summarize [⟨some "A1", some "Alpha", some 12000, none, none, none, some "ALPHA", some 50000⟩]
      ∧ (⟨some "Alpha", some "ALPHA", some "A1", some "12,000.00", some "50,000.00"⟩ : OutputRow).boughtName
          = s.boughtName
      ∧ (⟨some "Alpha", some "ALPHA", some "A1", some "12,000.00", some "50,000.00"⟩ : OutputRow).scripName
          = s.scripName
      ∧ (⟨some "Alpha", some "ALPHA", some "A1", some "12,000.00", some "50,000.00"⟩ : OutputRow).boughtCode
          = s.boughtCode
      ∧ (⟨some "Alpha", some "ALPHA", some "A1", some "12,000.00", some "50,000.00"⟩ : OutputRow).boughtQuantity
          = some (formatComma2 s.boughtQuantity)
      ∧ (⟨some "Alpha", some "ALPHA", some "A1", some "12,000.00", some "50,000.00"⟩ : OutputRow).value
          = some (formatComma2 s.value) := by
  have hsum : summarize [⟨some "A1", some "Alpha", some 12000, none, none, none, some "ALPHA", some 50000⟩]
      = [⟨some "Alpha", some "ALPHA", some "A1", 12000, 50000⟩] := by
    have h : (9999 : ℚ) < |(12000 : ℚ)| := by rw [abs_of_nonneg] <;> norm_num
    simp [summarize, materialityFilter, aggregate, cleanMerge, merge, signNormalize, scrub,
          astypeStr, EXCLUDED, fillna, mkey, sumD, h]
    norm_num
  have hf1 : formatComma2 12000 = "12,000.00" := by
    have habs : (100 : ℚ) * |(12000 : ℚ)| = ((1200000 : ℤ) : ℚ) := by
      rw [abs_of_nonneg] <;> norm_num
    simp only [formatComma2]
    rw [habs, roundHalfEven_intCast, if_neg (by norm_num : ¬ (12000 : ℚ) < 0)]
    decide
  have hf2 : formatComma2 50000 = "50,000.00" := by
    have habs : (100 : ℚ) * |(50000 : ℚ)| = ((5000000 : ℤ) : ℚ) := by
      rw [abs_of_nonneg] <;> norm_num
    simp only [formatComma2]
    rw [habs, roundHalfEven_intCast, if_neg (by norm_num : ¬ (50000 : ℚ) < 0)]
    decide
  have ho : (⟨some "Alpha", some "ALPHA", some "A1", some "12,000.00", some "50,000.00"⟩ : OutputRow)
      ∈ process_excel_file [⟨some "A1", some "Alpha", some 12000, none, none, none, some "ALPHA", some 50000⟩] := by
    unfold process_excel_file
    rw [hsum]
    simp [formatRow, formatCell, hf1, hf2]
  exact (output_formatting _ _ ho).1
